import Mathlib

/-!
Verification development for `src/purifycss.js` of the purifycss repository.

The single source file is the orchestration layer of the purifier.  Its
collaborators (`CssSyntaxTree`, `ContentSelectorExtraction`, `clean-css`,
`uglifyjs`, `fs`) are not part of the source tree, so they are embedded as
abstract operation records; the orchestration code itself (option merging,
file concatenation, code compression with fallback, pipeline order, the
output/callback delivery branch, and the rejected-selector renderer) is
translated statement by statement.

JavaScript effects are made explicit:
* the undeclared-variable assignment `compressor = UglifyJS.Compressor()`
  (line 96 of the source, a write to a process-wide global because the
  `var` keyword is missing) is modelled by threading the global's value
  `Option C` in and out of `compressCodeSt`;
* exceptions of the uglify collaborator are `Except` values, and the
  `try { ... } catch (e) { }` of `compressCode` is the fallback match;
* calls to `fs.writeFile`, to the supplied callback, to `CleanCss().minify`,
  the strings handed to `CssSyntaxTree` / `ContentSelectorExtraction`, and
  the value returned by the `fs.writeFile` completion handler are recorded
  in an `Effects` record, and the function's JS return value is a
  `PurifyResult` (`undefined`, the purified string, or the callback's
  return value).
-/

/-- Abstract interface of the `uglifyjs` collaborator used by `compressCode`
(source lines 91-107).  Each stage may throw, modelled by `Except String`. -/
structure UglifyJS (Ast C : Type) where
  parse : String → Except String Ast
  figure_out_scope : Ast → Except String Ast
  Compressor : Except String C
  transform : Ast → C → Except String Ast
  compute_char_frequency : Ast → Except String Ast
  mangle_names : Ast → Except String Ast
  print_to_string : Ast → Except String String

/-- The uglify pipeline of source lines 94-101 as one fallible computation:
parse, figure_out_scope, Compressor(), transform, figure_out_scope,
compute_char_frequency, mangle_names({toplevel: true}), print_to_string. -/
def runUglify {Ast C : Type} (U : UglifyJS Ast C) (code : String) :
    Except String String :=
  match U.parse code with
  | .error e => .error e
  | .ok a0 =>
  match U.figure_out_scope a0 with
  | .error e => .error e
  | .ok a1 =>
  match U.Compressor with
  | .error e => .error e
  | .ok comp =>
  match U.transform a1 comp with
  | .error e => .error e
  | .ok a2 =>
  match U.figure_out_scope a2 with
  | .error e => .error e
  | .ok a3 =>
  match U.compute_char_frequency a3 with
  | .error e => .error e
  | .ok a4 =>
  match U.mangle_names a4 with
  | .error e => .error e
  | .ok a5 => U.print_to_string a5

/-- `compressCode` (source lines 91-107) with the process-wide global made
explicit.  `g : Option C` is the value of the module-external variable
`compressor` before the call (`none` = still undefined); the first component
of the result is its value afterwards.  Line 96 of the source assigns
`compressor` without `var`, so the global is written as soon as
`UglifyJS.Compressor()` returns; a later throw is caught (the function then
returns the original `code`) but the global write persists. -/
def compressCodeSt {Ast C : Type} (U : UglifyJS Ast C) (g : Option C)
    (code : String) : Option C × String :=
  match U.parse code with
  | .error _ => (g, code)
  | .ok a0 =>
  match U.figure_out_scope a0 with
  | .error _ => (g, code)
  | .ok a1 =>
  match U.Compressor with
  | .error _ => (g, code)
  | .ok comp =>
  -- line 96: `compressor = UglifyJS.Compressor();` — global write
  let g1 : Option C := some comp
  match U.transform a1 comp with
  | .error _ => (g1, code)
  | .ok a2 =>
  match U.figure_out_scope a2 with
  | .error _ => (g1, code)
  | .ok a3 =>
  match U.compute_char_frequency a3 with
  | .error _ => (g1, code)
  | .ok a4 =>
  match U.mangle_names a4 with
  | .error _ => (g1, code)
  | .ok a5 =>
  match U.print_to_string a5 with
  | .error _ => (g1, code)
  | .ok out => (g1, out)

/-- The value `compressCode` returns (its global effect projected away):
the compressed text when the whole pipeline succeeds, the original text
otherwise. -/
def compressCode {Ast C : Type} (U : UglifyJS Ast C) (code : String) : String :=
  match runUglify U code with
  | .ok out => out
  | .error _ => code

/-- JavaScript `String.prototype.toLowerCase` as used on source line 40,
character-wise basic-latin lower-casing. -/
def toLowerCase (s : String) : String :=
  ⟨s.data.map Char.toLower⟩

/-- The module-level array `htmlEls` of source line 168. -/
def htmlEls : List String :=
  ["h1", "h2", "h3", "h4", "h5", "h6", "a", "abbr", "acronym", "address", "applet", "area",
   "article", "aside", "audio", "b", "base", "basefont", "bdi", "bdo", "bgsound", "big",
   "blink", "blockquote", "body", "br", "button", "canvas", "caption", "center", "cite",
   "code", "col", "colgroup", "command", "content", "data", "datalist", "dd", "del",
   "details", "dfn", "dialog", "dir", "div", "dl", "dt", "element", "em", "embed", "fieldset",
   "figcaption", "figure", "font", "footer", "form", "frame", "frameset", "head", "header",
   "hgroup", "hr", "html", "i", "iframe", "image", "img", "input", "ins", "isindex", "kbd",
   "keygen", "label", "legend", "li", "link", "listing", "main", "map", "mark", "marquee",
   "menu", "menuitem", "meta", "meter", "multicol", "nav", "nobr", "noembed", "noframes",
   "noscript", "object", "ol", "optgroup", "option", "output", "p", "param", "picture",
   "plaintext", "pre", "progress", "q", "rp", "rt", "rtc", "ruby", "s", "samp", "script",
   "section", "select", "shadow", "small", "source", "spacer", "span", "strike", "strong",
   "style", "sub", "summary", "sup", "table", "tbody", "td", "template", "textarea", "tfoot",
   "th", "thead", "time", "title", "tr", "track", "tt", "u", "ul", "var", "video", "wbr",
   "xmp"]

/-- One part of a selector twig, the tagged arrays consumed by
`getRuleString` (source lines 123-148).  The JS part is an array whose
slot 0 is the kind tag; for `clazz` and `attrib` the payload in slot 1 is
itself a tagged array whose slot 1 carries the name/text, modelled here as
the two string fields. -/
inductive RulePart where
  | s (text : String)
  | clazz (innerHead name : String)
  | shash (name : String)
  | ident (name : String)
  | attrib (innerHead text : String)
  | other (tag : String)
deriving DecidableEq

/-- A selector twig: slot 0 of the JS array (the node-kind sentinel,
skipped by the `i = 1` loop start) plus the remaining parts. -/
structure Twig where
  head : String
  parts : List RulePart
deriving DecidableEq

/-- `getRuleString` (source lines 123-148).  The loop from `i = 1` over the
twig's parts, appending per the `switch`; a whitespace part strictly equal
to `"\n"` contributes nothing (line 129).  `stringify` stands for
`JSON.stringify`, used only by the `default` branch. -/
def getRuleString (stringify : Twig → String) (twig : Twig) : String :=
  twig.parts.foldl (fun ruleString rulePart =>
    ruleString ++
      match rulePart with
      | .s text => if text ≠ "\n" then text else ""
      | .clazz _ name => "." ++ name
      | .shash name => "#" ++ name
      | .ident name => name
      | .attrib _ text => "[" ++ text ++ "]"
      | .other _ => "Unsupported: " ++ stringify twig) ""

/-- Rendering of a single twig part, as `getRuleString` performs it:
`.name` / `#name` / bare name / `[text]`, whitespace passed through except
that a part equal to exactly one newline renders as the empty string. -/
def renderRulePart (stringify : Twig → String) (twig : Twig)
    (rulePart : RulePart) : String :=
  match rulePart with
  | .s text => if text ≠ "\n" then text else ""
  | .clazz _ name => "." ++ name
  | .shash name => "#" ++ name
  | .ident name => name
  | .attrib _ text => "[" ++ text ++ "]"
  | .other _ => "Unsupported: " ++ stringify twig

/-- Modelled from the claim's words (C7): the render-back function with
every whitespace part passed through unchanged (no newline exception). -/
def getRuleStringPerClaim (twig : Twig) : String :=
  String.join (twig.parts.map (fun rulePart =>
    match rulePart with
    | .s text => text
    | .clazz _ name => "." ++ name
    | .shash name => "#" ++ name
    | .ident name => name
    | .attrib _ text => "[" ++ text ++ "]"
    | .other _ => ""))

/-- The options object as the caller passes it: each documented key either
absent (`none`) or present.  `write` is documented to hold `false` or a
file path, hence `Option (Option String)` (absent / explicit false /
a path). -/
structure UserOptions where
  write : Option (Option String)
  minify : Option Bool
  info : Option Bool
  rejected : Option Bool
  output : Option String
deriving DecidableEq

/-- The empty options object `{}`. -/
def UserOptions.empty : UserOptions :=
  ⟨none, none, none, none, none⟩

/-- The merged options in effect after
`_.extend({}, DEFAULT_OPTIONS, options)` (source line 33): every key has a
value, an absent boolean key behaving as false (JS undefined is falsy) and
an absent `output`/`write` as `none`. -/
structure Options where
  write : Option String
  minify : Bool
  info : Bool
  rejected : Bool
  output : Option String
deriving DecidableEq

/-- `DEFAULT_OPTIONS` (source lines 21-25): `write: false`, `minify: false`,
`info: false`; no `rejected` or `output` key (falsy / undefined). -/
def DEFAULT_OPTIONS : Options :=
  ⟨none, false, false, false, none⟩

/-- `_.extend({}, DEFAULT_OPTIONS, options)`: caller-supplied keys override
the defaults; keys absent from both stay undefined (falsy). -/
def extendOptions (u : UserOptions) : Options :=
  ⟨u.write.getD DEFAULT_OPTIONS.write,
   u.minify.getD DEFAULT_OPTIONS.minify,
   u.info.getD DEFAULT_OPTIONS.info,
   u.rejected.getD DEFAULT_OPTIONS.rejected,
   u.output⟩

/-- The third argument of `purify`: omitted, an options object, or (per the
`typeof options === 'function'` test of line 28) the callback itself. -/
inductive OptionsArg (ρ : Type) where
  | undef
  | opts (u : UserOptions)
  | fn (f : String → ρ)

/-- Lines 28-32: if the options argument is a function it becomes the
callback and the options become `{}`; a missing options argument also
becomes `{}` (`options = options || {}`). -/
def normalizeArgs {ρ : Type} (optionsArg : OptionsArg ρ)
    (callback : Option (String → ρ)) : UserOptions × Option (String → ρ) :=
  match optionsArg with
  | .fn f => (UserOptions.empty, some f)
  | .undef => (UserOptions.empty, callback)
  | .opts u => (u, callback)

/-- The first two arguments of `purify`: an array of file paths or a raw
string (the `Array.isArray` tests of lines 35-38). -/
inductive StrOrList where
  | raw (s : String)
  | files (l : List String)

/-- The JS return value of `purify`: the purified string (line 81, no
callback), the callback's return value (line 81, callback present), or
`undefined` (the `options.output` branch falls off the end of the
function). -/
inductive PurifyResult (ρ : Type) where
  | css (s : String)
  | cbVal (r : ρ)
  | undef

/-- Observable behaviour of one `purify` invocation beside its return
value: the exact strings handed to the collaborators and the external
effects performed. -/
structure Effects where
  /-- argument of `new CssSyntaxTree(...)` (line 47) -/
  parsedCss : String
  /-- argument of `new ContentSelectorExtraction(...)` (line 50) -/
  corpus : String
  /-- value of `tree.toSrc()` (line 66) -/
  serialized : String
  /-- the final `source` variable: the purified CSS text delivered -/
  source : String
  /-- arguments of the `CleanCss().minify` calls (line 69) -/
  minifyCalls : List String
  /-- arguments of the callback invocations (line 81) -/
  cbCalls : List String
  /-- `(path, data)` of the `fs.writeFile` calls (line 83) -/
  writes : List (String × String)
  /-- values returned by the `function(err){ if(err) return err; }`
  completion handler (lines 83-85); they are returned into the `fs`
  machinery and reach no one -/
  writeHandlerReturns : List (Option String)
  /-- whether `printInfo` ran (line 73) -/
  infoPrinted : Bool
  /-- the twig list handed to `printRejected` (line 77), when it ran -/
  rejectedPrinted : Option (List Twig)
deriving DecidableEq

/-- Abstract record of the collaborators `purify` drives: the uglify
module, `fs.readFileSync`, the CSS tree and extraction modules (not part of
this source tree), `clean-css`, and the outcome `fs.writeFile` will report
to its completion handler for a given `(path, data)`. -/
structure Env (Ast C Tree Extr : Type) where
  uglify : UglifyJS Ast C
  readFileSync : String → String
  CssSyntaxTree : String → Tree
  ContentSelectorExtraction : String → Extr
  tree_classes : Tree → List String
  tree_specialClasses : Tree → List String
  tree_ids : Tree → List String
  tree_specialIds : Tree → List String
  tree_attrSelectors : Tree → List String
  ex_filter : Extr → List String → List String
  ex_filterBySearch : Extr → List String → List String
  filterSelectors : Tree → List String → List String → List String → List String → Tree × List Twig
  filterAtRules : Tree → List String → List String → List String → List String → Tree × List Twig
  toSrc : Tree → String
  cleanCssMinify : String → String
  writeFileResult : String → String → Option String

/-- The reducer function of `concatFiles` (source lines 112-120): read the
file, compress it when `options.compress` is set, and append it plus a
space to the accumulated string.  The `compressor` global is threaded
through in the accumulator's first component because `compressCode` may
write it. -/
def concatStep {Ast C Tree Extr : Type} (E : Env Ast C Tree Extr)
    (compress : Bool) (total : Option C × String) (file : String) :
    Option C × String :=
  let code := E.readFileSync file
  let cc := if compress then compressCodeSt E.uglify total.1 code
            else (total.1, code)
  (cc.1, total.2 ++ cc.2 ++ " ")

/-- `concatFiles` (source lines 109-121): `files.reduce` with the reducer
above, starting from the empty string. -/
def concatFiles {Ast C Tree Extr : Type} (E : Env Ast C Tree Extr)
    (files : List String) (compress : Bool) (g : Option C) :
    Option C × String :=
  files.foldl (concatStep E compress) (g, "")

/-- The `fs.writeFile` completion handler of lines 83-85:
`function(err){ if(err) return err; }`.  Its return value goes back into
the asynchronous `fs` machinery, not to `purify`'s caller. -/
def writeFileErrHandler (err : Option String) : Option String :=
  match err with
  | some e => some e
  | none => none

/-- Source lines 47-63: build the syntax tree and the extraction, narrow
the candidate lists (`filter` for plain classes/ids/html elements,
`filterBySearch` for special classes/ids and attribute selectors,
concatenating special onto plain), then prune the tree with
`filterSelectors` followed by `filterAtRules`.  Returns the pruned tree and
the two rejected-twig lists. -/
def narrowTree {Ast C Tree Extr : Type} (E : Env Ast C Tree Extr)
    (cssString content : String) : Tree × List Twig × List Twig :=
  let tree := E.CssSyntaxTree cssString
  let extraction := E.ContentSelectorExtraction content
  let classes0 := E.ex_filter extraction (E.tree_classes tree)
  let specialClasses := E.ex_filterBySearch extraction (E.tree_specialClasses tree)
  let ids0 := E.ex_filter extraction (E.tree_ids tree)
  let specialIds := E.ex_filterBySearch extraction (E.tree_specialIds tree)
  let attrSelectors := E.ex_filterBySearch extraction (E.tree_attrSelectors tree)
  let classes := classes0 ++ specialClasses
  let ids := ids0 ++ specialIds
  let usedHtmlEls := E.ex_filter extraction htmlEls
  let sel := E.filterSelectors tree classes usedHtmlEls ids attrSelectors
  let at_ := E.filterAtRules sel.1 classes usedHtmlEls ids attrSelectors
  (at_.1, sel.2, at_.2)

/-- `purify` (source lines 27-87).  Arguments follow the JS signature
(`searchThrough`, `css`, `options`, `callback`) plus the value `g0` of the
process-wide `compressor` global before the call; the result is the JS
return value, the observable effects, and the global's value after the
call.  Line order is preserved: argument normalization, option merging,
`cssString` (line 35), `content` (lines 36-40), tree building and
narrowing (lines 47-63), `toSrc` (line 66), optional minification
(lines 68-70), info/rejected reporting (lines 72-78), and the
output/callback delivery branch (lines 80-86). -/
def purify {Ast C Tree Extr ρ : Type} (E : Env Ast C Tree Extr)
    (searchThrough css : StrOrList) (optionsArg : OptionsArg ρ)
    (callback0 : Option (String → ρ)) (g0 : Option C) :
    PurifyResult ρ × Effects × Option C :=
  let na := normalizeArgs optionsArg callback0
  let options := extendOptions na.1
  let callback := na.2
  let cssPair : Option C × String :=
    match css with
    | .files l => concatFiles E l false g0
    | .raw s => (g0, s)
  let cssString := cssPair.2
  let contentPair : Option C × String :=
    match searchThrough with
    | .files l => concatFiles E l true cssPair.1
    | .raw s => compressCodeSt E.uglify cssPair.1 s
  let content := toLowerCase contentPair.2
  let nt := narrowTree E cssString content
  let serialized := E.toSrc nt.1
  let source := if options.minify then E.cleanCssMinify serialized else serialized
  let minifyCalls := if options.minify then [serialized] else []
  let rejectedPrinted := if options.rejected then some (nt.2.1 ++ nt.2.2) else none
  let delivered : PurifyResult ρ × List String × List (String × String) × List (Option String) :=
    match options.output with
    | none =>
      match callback with
      | some f => (.cbVal (f source), [source], [], [])
      | none => (.css source, [], [], [])
    | some path =>
      (.undef, [], [(path, source)],
       [writeFileErrHandler (E.writeFileResult path source)])
  (delivered.1,
   ⟨cssString, content, serialized, source, minifyCalls, delivered.2.1,
    delivered.2.2.1, delivered.2.2.2, options.info, rejectedPrinted⟩,
   contentPair.1)

/-- Modelled from the claim's words (C6): the CSS text as "the
concatenation of the files' texts with a separating space between
consecutive sources". -/
def cssStringPerClaim {Ast C Tree Extr : Type} (E : Env Ast C Tree Extr)
    (files : List String) : String :=
  String.intercalate " " (files.map E.readFileSync)

/-- Modelled from the claim's words (C5): the corpus as "the lower-casing
of the concatenation of the sources, where each source has first been
passed through the code-compressor". -/
def corpusPerClaim {Ast C Tree Extr : Type} (E : Env Ast C Tree Extr)
    (files : List String) : String :=
  toLowerCase (String.join (files.map (fun f => compressCode E.uglify (E.readFileSync f))))

/-- A concrete uglify collaborator whose very first stage throws; used to
exhibit the fallback behaviour on an explicit input. -/
def UglifyFailing : UglifyJS Unit Unit :=
  ⟨fun _ => .error "parse error", fun _ => .ok (), .ok (), fun _ _ => .ok (),
   fun _ => .ok (), fun _ => .ok (), fun _ => .ok "compressed"⟩

/-- A concrete uglify collaborator where every stage succeeds; reaching
line 96 writes the `compressor` global. -/
def UglifyOk : UglifyJS Unit Unit :=
  ⟨fun _ => .ok (), fun _ => .ok (), .ok (), fun _ _ => .ok (),
   fun _ => .ok (), fun _ => .ok (), fun _ => .ok "compressed"⟩

/-- A concrete collaborator record over trivial tree/extraction types:
every file reads as `"A"`, the uglify stage throws at parse time (so
compression is the identity fallback), serialization yields `"CSS"`, the
minifier appends `"!"`, and `fs.writeFile` reports `werr` to its
completion handler. -/
def EnvB (werr : Option String) : Env Unit Unit Unit Unit :=
  ⟨UglifyFailing, fun _ => "A", fun _ => (), fun _ => (),
   fun _ => [], fun _ => [], fun _ => [], fun _ => [], fun _ => [],
   fun _ l => l, fun _ l => l,
   fun t _ _ _ _ => (t, []), fun t _ _ _ _ => (t, []),
   fun _ => "CSS", fun s => s ++ "!", fun _ _ => werr⟩

/-- Like `EnvB none` but with the always-succeeding uglify collaborator, so
that line 96 is reached and the `compressor` global is written. -/
def EnvOkU : Env Unit Unit Unit Unit :=
  ⟨UglifyOk, fun _ => "A", fun _ => (), fun _ => (),
   fun _ => [], fun _ => [], fun _ => [], fun _ => [], fun _ => [],
   fun _ l => l, fun _ l => l,
   fun t _ _ _ _ => (t, []), fun t _ _ _ _ => (t, []),
   fun _ => "CSS", fun s => s ++ "!", fun _ _ => none⟩

theorem compressCodeSt_snd {Ast C : Type} (U : UglifyJS Ast C) (g : Option C)
    (code : String) : (compressCodeSt U g code).2 = compressCode U code := by
  unfold compressCodeSt compressCode runUglify
  cases hp : U.parse code with
  | error e => rfl
  | ok a0 =>
    dsimp only
    cases h0 : U.figure_out_scope a0 with
    | error e => rfl
    | ok a1 =>
      dsimp only
      cases hc : U.Compressor with
      | error e => rfl
      | ok comp =>
        dsimp only
        cases h1 : U.transform a1 comp with
        | error e => rfl
        | ok a2 =>
          dsimp only
          cases h2 : U.figure_out_scope a2 with
          | error e => rfl
          | ok a3 =>
            dsimp only
            cases h3 : U.compute_char_frequency a3 with
            | error e => rfl
            | ok a4 =>
              dsimp only
              cases h4 : U.mangle_names a4 with
              | error e => rfl
              | ok a5 =>
                dsimp only
                cases h5 : U.print_to_string a5 with
                | error e => rfl
                | ok out => rfl

/-- C1: if the external code-compressor throws during any stage of its
pipeline, `compressCode` returns the original input text unchanged
(whatever the prior state of the `compressor` global), so the corpus built
from that source is the raw text. -/
theorem compressCode_fallback_on_throw {Ast C : Type} (U : UglifyJS Ast C)
    (code e : String) (h : runUglify U code = .error e) :
    compressCode U code = code ∧
      ∀ g : Option C, (compressCodeSt U g code).2 = code := by
  have hc : compressCode U code = code := by
    unfold compressCode
    rw [h]
  refine ⟨hc, fun g => ?_⟩
  rw [compressCodeSt_snd, hc]

/-- C1 witness: on the input `"x"` with a collaborator that throws at parse
time, the pipeline errors and `compressCode` hands back `"x"`. -/
theorem compressCode_fallback_on_throw_witness :
    runUglify UglifyFailing "x" = .error "parse error" ∧
      compressCode UglifyFailing "x" = "x" ∧
      (compressCodeSt UglifyFailing none "x").2 = "x" := by
  refine ⟨rfl, ?_, ?_⟩
  · exact (compressCode_fallback_on_throw UglifyFailing "x" "parse error" rfl).1
  · exact (compressCode_fallback_on_throw UglifyFailing "x" "parse error" rfl).2 none

theorem charOfNat_valid_toNat {n : Nat} (h1 : 65 ≤ n) (h2 : n ≤ 90) :
    (Char.ofNat (n + 32)).toNat = n + 32 := by
  interval_cases n <;> decide

theorem char_toLower_toLower (c : Char) :
    Char.toLower (Char.toLower c) = Char.toLower c := by
  have key : ∀ d : Char, Char.toLower d =
      if d.toNat ≥ 65 ∧ d.toNat ≤ 90 then Char.ofNat (d.toNat + 32) else d :=
    fun d => rfl
  by_cases h : c.toNat ≥ 65 ∧ c.toNat ≤ 90
  · rw [key c, if_pos h, key (Char.ofNat (c.toNat + 32)), if_neg]
    have hv : (Char.ofNat (c.toNat + 32)).toNat = c.toNat + 32 :=
      charOfNat_valid_toNat h.1 h.2
    rw [hv]
    omega
  · rw [key c, if_neg h, key c, if_neg h]

theorem toLowerCase_idem (s : String) :
    toLowerCase (toLowerCase s) = toLowerCase s := by
  unfold toLowerCase
  refine congrArg String.mk ?_
  show (s.data.map Char.toLower).map Char.toLower = s.data.map Char.toLower
  rw [List.map_map]
  exact List.map_congr_left (fun a _ => char_toLower_toLower a)

theorem concatStep_true {Ast C Tree Extr : Type} (E : Env Ast C Tree Extr)
    (total : Option C × String) (file : String) :
    concatStep E true total file =
      ((compressCodeSt E.uglify total.1 (E.readFileSync file)).1,
       total.2 ++ compressCode E.uglify (E.readFileSync file) ++ " ") := by
  show ((compressCodeSt E.uglify total.1 (E.readFileSync file)).1,
        total.2 ++ (compressCodeSt E.uglify total.1 (E.readFileSync file)).2 ++ " ") = _
  rw [compressCodeSt_snd]

theorem concatStep_false {Ast C Tree Extr : Type} (E : Env Ast C Tree Extr)
    (total : Option C × String) (file : String) :
    concatStep E false total file = (total.1, total.2 ++ E.readFileSync file ++ " ") :=
  rfl

theorem concatFiles_snd {Ast C Tree Extr : Type} (E : Env Ast C Tree Extr)
    (files : List String) (compress : Bool) (g : Option C) :
    (concatFiles E files compress g).2 =
      files.foldl (fun acc file =>
        acc ++ (if compress then compressCode E.uglify (E.readFileSync file)
                else E.readFileSync file) ++ " ") "" := by
  have aux : ∀ (l : List String) (g0 : Option C) (s : String),
      (l.foldl (concatStep E compress) (g0, s)).2
      = l.foldl (fun acc file =>
          acc ++ (if compress then compressCode E.uglify (E.readFileSync file)
                  else E.readFileSync file) ++ " ") s := by
    intro l
    induction l with
    | nil => intro g0 s; rfl
    | cons a l ih =>
      intro g0 s
      cases compress with
      | false =>
        simp only [List.foldl_cons, concatStep_false]
        exact ih g0 _
      | true =>
        simp only [List.foldl_cons, concatStep_true]
        exact ih (compressCodeSt E.uglify g0 (E.readFileSync a)).1 _
  exact aux files g ""

/-- C7 (counterexample): the claim's rendering passes every whitespace part
through, but `getRuleString` drops a whitespace part that is exactly one
newline (line 129), so on the twig `['simpleselector', ['s', '\n']]` the
two renderings differ (`""` versus `"\n"`). -/
theorem getRuleString_newline_cex :
    getRuleString (fun _ => "") ⟨"simpleselector", [RulePart.s "\n"]⟩ ≠
      getRuleStringPerClaim ⟨"simpleselector", [RulePart.s "\n"]⟩ := by
  decide

/-- C7 (amended): `getRuleString` produces the concatenation, in part
order, of the per-part renderings `.name` (class), `#name` (id), bare name
(tag), `[text]` (attribute), whitespace parts passed through except that a
part equal to exactly one newline renders as the empty string, and an
`Unsupported:` marker for any other kind. -/
theorem getRuleString_concats_parts (stringify : Twig → String) (twig : Twig) :
    getRuleString stringify twig =
      String.join (twig.parts.map (renderRulePart stringify twig)) := by
  show twig.parts.foldl (fun ruleString rulePart =>
        ruleString ++ renderRulePart stringify twig rulePart) "" = _
  rw [← List.foldl_map (renderRulePart stringify twig) (fun r t => r ++ t)]
  rfl

/-- C5 (counterexample): with a collaborator record where the single
content file reads as `"A"` and compression falls back to the identity,
the corpus `purify` hands to the extractor is `"a "` (a space is appended
after the source), not the plain lower-cased concatenation `"a"` the claim
states. -/
theorem purify_corpus_cex :
    (purify (EnvB none) (.files ["f"]) (.raw "") (OptionsArg.undef : OptionsArg Unit)
        none none).2.1.corpus ≠ corpusPerClaim (EnvB none) ["f"] := by
  decide

/-- C5 (amended): for every list of content sources, the corpus handed to
the usage extractor is the lower-casing of the concatenation of the
sources, each source first passed through the code-compressor and followed
by one appended space; compression happens before concatenation and
lower-casing, and the corpus is unchanged by further lower-casing. -/
theorem purify_corpus_eq {Ast C Tree Extr ρ : Type} (E : Env Ast C Tree Extr)
    (files : List String) (css : StrOrList) (oa : OptionsArg ρ)
    (cb : Option (String → ρ)) (g0 : Option C) :
    (purify E (.files files) css oa cb g0).2.1.corpus =
      toLowerCase (files.foldl (fun acc f =>
        acc ++ compressCode E.uglify (E.readFileSync f) ++ " ") "") ∧
    toLowerCase (purify E (.files files) css oa cb g0).2.1.corpus =
      (purify E (.files files) css oa cb g0).2.1.corpus := by
  constructor
  · dsimp only [purify]
    rw [concatFiles_snd]
    simp
  · dsimp only [purify]
    exact toLowerCase_idem _

/-- C6 (counterexample): with a collaborator record where the single CSS
file reads as `"A"`, the text `purify` hands to the CSS parser is `"A "`
(a space is appended after the source), not the space-separated
concatenation `"A"` the claim states. -/
theorem purify_cssString_cex :
    (purify (EnvB none) (.raw "") (.files ["f"]) (OptionsArg.undef : OptionsArg Unit)
        none none).2.1.parsedCss ≠ cssStringPerClaim (EnvB none) ["f"] := by
  decide

/-- C6 (amended): for an array of CSS file sources, the CSS text given to
the parser is the concatenation of the files' texts with one space
appended after each source (hence a space also separates consecutive
sources); a raw CSS string input is parsed as given. -/
theorem purify_cssString_eq {Ast C Tree Extr ρ : Type} (E : Env Ast C Tree Extr)
    (st : StrOrList) (files : List String) (oa : OptionsArg ρ)
    (cb : Option (String → ρ)) (g0 : Option C) :
    (purify E st (.files files) oa cb g0).2.1.parsedCss =
      files.foldl (fun acc f => acc ++ E.readFileSync f ++ " ") "" ∧
    ∀ s : String, (purify E st (.raw s) oa cb g0).2.1.parsedCss = s := by
  constructor
  · dsimp only [purify]
    rw [concatFiles_snd]
    simp
  · intro s
    rfl

/-- C2: the purified CSS text is delivered to the caller: with no
destination path it is passed to the callback when one is supplied and
otherwise returned as the function's value (and nothing is written); with a
destination path it is handed to `fs.writeFile` for that path. -/
theorem purify_output_delivery {Ast C Tree Extr ρ : Type} (E : Env Ast C Tree Extr)
    (st css : StrOrList) (u : UserOptions) (cb : Option (String → ρ))
    (g0 : Option C) :
    match u.output, cb with
    | none, some f =>
        (purify E st css (.opts u) cb g0).1 =
          PurifyResult.cbVal (f (purify E st css (.opts u) cb g0).2.1.source) ∧
        (purify E st css (.opts u) cb g0).2.1.cbCalls =
          [(purify E st css (.opts u) cb g0).2.1.source] ∧
        (purify E st css (.opts u) cb g0).2.1.writes = []
    | none, none =>
        (purify E st css (.opts u) cb g0).1 =
          PurifyResult.css (purify E st css (.opts u) cb g0).2.1.source ∧
        (purify E st css (.opts u) cb g0).2.1.writes = []
    | some p, _ =>
        (purify E st css (.opts u) cb g0).2.1.writes =
          [(p, (purify E st css (.opts u) cb g0).2.1.source)] := by
  obtain ⟨w, m, i, r, out⟩ := u
  cases out with
  | none =>
    cases cb with
    | none => exact ⟨rfl, rfl⟩
    | some f => exact ⟨rfl, rfl, rfl⟩
  | some p =>
    cases cb with
    | none => exact rfl
    | some f => exact rfl

/-- C8: `CleanCss().minify` is applied exactly when the merged `minify`
option is true, and then only to the serialization of the tree pruned by
both `filterSelectors` and `filterAtRules`; when `minify` is not set the
serialized string is delivered unmodified. -/
theorem purify_minify_only_after_filters {Ast C Tree Extr ρ : Type}
    (E : Env Ast C Tree Extr) (st css : StrOrList) (u : UserOptions)
    (cb : Option (String → ρ)) (g0 : Option C) :
    (purify E st css (.opts u) cb g0).2.1.serialized =
      E.toSrc (narrowTree E (purify E st css (.opts u) cb g0).2.1.parsedCss
        (purify E st css (.opts u) cb g0).2.1.corpus).1 ∧
    (purify E st css (.opts u) cb g0).2.1.minifyCalls =
      (if u.minify.getD false
       then [(purify E st css (.opts u) cb g0).2.1.serialized] else []) ∧
    (purify E st css (.opts u) cb g0).2.1.source =
      (if u.minify.getD false
       then E.cleanCssMinify (purify E st css (.opts u) cb g0).2.1.serialized
       else (purify E st css (.opts u) cb g0).2.1.serialized) := by
  exact ⟨rfl, rfl, rfl⟩

/-- C9: when a destination path is specified the function returns
`undefined` and never invokes the callback, even though one was
supplied. -/
theorem purify_output_branch_returns_undef {Ast C Tree Extr ρ : Type}
    (E : Env Ast C Tree Extr) (st css : StrOrList) (u : UserOptions)
    (p : String) (h : u.output = some p) (f : String → ρ) (g0 : Option C) :
    (purify E st css (.opts u) (some f) g0).1 = PurifyResult.undef ∧
    (purify E st css (.opts u) (some f) g0).2.1.cbCalls = [] := by
  obtain ⟨w, m, i, r, out⟩ := u
  cases out with
  | none => exact Option.noConfusion h
  | some q => exact ⟨rfl, rfl⟩

/-- C9 witness: a concrete invocation with `output` set and a callback
supplied returns `undefined` and records no callback call. -/
theorem purify_output_branch_returns_undef_witness :
    (purify (EnvB none) (.raw "x") (.raw "c")
        (.opts ⟨none, none, none, none, some "out.css"⟩)
        (some (fun t => t)) none).1 = PurifyResult.undef ∧
    (purify (EnvB none) (.raw "x") (.raw "c")
        (.opts ⟨none, none, none, none, some "out.css"⟩)
        (some (fun t => t)) none).2.1.cbCalls = [] :=
  purify_output_branch_returns_undef (EnvB none) (.raw "x") (.raw "c")
    ⟨none, none, none, none, some "out.css"⟩ "out.css" rfl (fun t => t) none

/-- C10: the `write` option is never consulted — the whole result of
`purify` is unchanged under any change of `options.write` — and with
`write` set (to anything, e.g. a path) but `output` unset, nothing is
written and the purified CSS is delivered to the caller. -/
theorem purify_write_option_unused {Ast C Tree Extr ρ : Type}
    (E : Env Ast C Tree Extr) (st css : StrOrList)
    (w w' : Option (Option String)) (m i r : Option Bool)
    (out : Option String) (cb : Option (String → ρ)) (g0 : Option C) :
    purify E st css (.opts ⟨w, m, i, r, out⟩) cb g0 =
      purify E st css (.opts ⟨w', m, i, r, out⟩) cb g0 ∧
    (purify E st css (.opts ⟨w, m, i, r, none⟩) cb g0).2.1.writes = [] ∧
    (purify E st css (.opts ⟨w, m, i, r, none⟩) cb g0).1 =
      (match cb with
       | some f => PurifyResult.cbVal
           (f (purify E st css (.opts ⟨w, m, i, r, none⟩) cb g0).2.1.source)
       | none => PurifyResult.css
           (purify E st css (.opts ⟨w, m, i, r, none⟩) cb g0).2.1.source) := by
  refine ⟨rfl, ?_, ?_⟩
  · cases cb with
    | none => rfl
    | some f => rfl
  · cases cb with
    | none => rfl
    | some f => rfl

/-- C3: the failure of the output write is NOT surfaced to the caller.  On
an invocation whose `fs.writeFile` fails with `"EACCES"`, the completion
handler sees (and returns) the error, but `purify` has already returned
`undefined`: the caller-visible return value and callback calls coincide
with those of the same invocation whose write succeeds.  The purified
string itself is indeed unaffected. -/
theorem purify_write_error_swallowed :
    (purify (EnvB (some "EACCES")) (.raw "x") (.raw "c")
        (.opts ⟨none, none, none, none, some "out.css"⟩)
        (some (fun t => t)) none).1 = PurifyResult.undef ∧
    (purify (EnvB (some "EACCES")) (.raw "x") (.raw "c")
        (.opts ⟨none, none, none, none, some "out.css"⟩)
        (some (fun t => t)) none).2.1.cbCalls = [] ∧
    (purify (EnvB (some "EACCES")) (.raw "x") (.raw "c")
        (.opts ⟨none, none, none, none, some "out.css"⟩)
        (some (fun t => t)) none).2.1.writeHandlerReturns = [some "EACCES"] ∧
    (purify (EnvB (some "EACCES")) (.raw "x") (.raw "c")
        (.opts ⟨none, none, none, none, some "out.css"⟩)
        (some (fun t => t)) none).1 =
      (purify (EnvB none) (.raw "x") (.raw "c")
        (.opts ⟨none, none, none, none, some "out.css"⟩)
        (some (fun t => t)) none).1 ∧
    (purify (EnvB (some "EACCES")) (.raw "x") (.raw "c")
        (.opts ⟨none, none, none, none, some "out.css"⟩)
        (some (fun t => t)) none).2.1.source =
      (purify (EnvB none) (.raw "x") (.raw "c")
        (.opts ⟨none, none, none, none, some "out.css"⟩)
        (some (fun t => t)) none).2.1.source :=
  ⟨rfl, rfl, rfl, rfl, rfl⟩

/-- C4: an invocation of `purify` does write a process-wide mutable
global.  With a content source the uglify collaborator can parse, line 96
(`compressor = UglifyJS.Compressor()`, no `var`) assigns the undeclared
variable `compressor`: the global, undefined before the call, is defined
after it. -/
theorem purify_writes_global_compressor :
    (purify EnvOkU (.raw "x") (.raw "c") (OptionsArg.undef : OptionsArg Unit)
        none none).2.2 ≠ (none : Option Unit) := by
  decide
